import Mathlib

set_option maxRecDepth 8192

/-!
Verification of the femjs static-file server (`src/serve.py`).

The script subclasses `http.server.SimpleHTTPRequestHandler` (Python 3.11.6
standard library), overriding `end_headers` to inject two fixed headers, and
runs it under `socketserver.TCPServer`.  The behavioural claims are decided by
the handler code in `/usr/lib/python3.11/http/server.py`, `urllib/parse.py`
and `posixpath.py`; those functions are embedded below.

Python strings are modelled as `List Char`; percent-decoding and encoding work
byte-wise (`Char.ofNat` of the byte value), which is exact for ASCII data.
Filesystem and clock effects (`os.path.isdir`, `open`, `os.listdir`,
`os.fstat`, date formatting, the `If-Modified-Since` comparison) are modelled
as oracles in an `Env` record; the handler is a pure function of the request
and that environment, mirroring the control flow of the source line by line.
-/
abbrev PStr := List Char

/-- Shorthand: a Lean string literal as a Python string (list of chars). -/
def str (s : String) : PStr := s.data

/-- Python `c in s` for a character. -/
def pHas (c : Char) (s : PStr) : Bool := s.any (· == c)

/-- Python `s.split(c, 1)[0]`: the part of `s` before the first `c`. -/
def pBefore (c : Char) (s : PStr) : PStr := s.takeWhile (· != c)

/-- Python `s.split(c, 1)[1]`: the part of `s` after the first `c`
(meaningful when `c` occurs in `s`). -/
def pAfter (c : Char) (s : PStr) : PStr := (s.dropWhile (· != c)).drop 1

/-- Python `s.split(c)`: split at every occurrence, keeping empty pieces
(`"".split(c) == ['']`). -/
def pSplitAll (c : Char) : PStr → List PStr
  | [] => [[]]
  | a :: rest =>
    if a = c then [] :: pSplitAll c rest
    else
      match pSplitAll c rest with
      | w :: ws => (a :: w) :: ws
      | [] => [[a]]

/-- ASCII whitespace, as stripped by Python `str.rstrip()` (the Unicode
whitespace cases do not arise for ASCII request paths). -/
def isSpaceChar (c : Char) : Bool :=
  c == ' ' || c == '\t' || c == '\n' || c == '\r' ||
  c == Char.ofNat 11 || c == Char.ofNat 12

/-- Python `s.rstrip()`. -/
def pRstrip (s : PStr) : PStr := (s.reverse.dropWhile isSpaceChar).reverse

/-- Python `s.endswith(c)` for a single character. -/
def endsWithChar (c : Char) (s : PStr) : Bool := s.getLast? == some c

def hexVal (c : Char) : Nat :=
  if '0' ≤ c ∧ c ≤ '9' then c.toNat - '0'.toNat
  else if 'a' ≤ c ∧ c ≤ 'f' then c.toNat - 'a'.toNat + 10
  else c.toNat - 'A'.toNat + 10

def isHexChar (c : Char) : Bool :=
  ('0' ≤ c ∧ c ≤ '9') ∨ ('a' ≤ c ∧ c ≤ 'f') ∨ ('A' ≤ c ∧ c ≤ 'F')

/-- `urllib.parse.unquote`: `%XX` hex escapes become the byte `XX`; a `%` not
followed by two hex digits is kept literally.  Bytes are mapped to chars
directly (exact for ASCII; the UTF-8 multi-byte recombination that CPython
performs on top of this is not modelled). -/
def unquote : PStr → PStr
  | [] => []
  | '%' :: a :: b :: rest =>
    if isHexChar a ∧ isHexChar b then
      Char.ofNat (hexVal a * 16 + hexVal b) :: unquote rest
    else '%' :: unquote (a :: b :: rest)
  | '%' :: [a] => ['%', a]
  | ['%'] => ['%']
  | a :: rest => a :: unquote rest

/-- One step of the `for comp in comps` loop of `posixpath.normpath`. -/
def normpathStep (initialSlashes : Nat) (acc : List PStr) (comp : PStr) : List PStr :=
  if comp = [] ∨ comp = str "." then acc
  else if comp ≠ str ".." ∨ (initialSlashes = 0 ∧ acc = []) ∨
          (acc ≠ [] ∧ acc.getLast? = some (str "..")) then acc ++ [comp]
  else if acc ≠ [] then acc.dropLast
  else acc

/-- `posixpath.normpath` (pure-Python reference implementation, semantically
identical to the C `_path_normpath` used on 3.11). -/
def normpath (path : PStr) : PStr :=
  if path = [] then str "." else
  let initialSlashes : Nat :=
    if path.take 1 = str "/" then
      if path.take 2 = str "//" ∧ path.take 3 ≠ str "///" then 2 else 1
    else 0
  let comps := pSplitAll '/' path
  let newComps := comps.foldl (normpathStep initialSlashes) []
  let joined := List.intercalate (str "/") newComps
  let out := List.replicate initialSlashes '/' ++ joined
  if out = [] then str "." else out

/-- `posixpath.join(a, b)` for a single extra component. -/
def pJoin (a b : PStr) : PStr :=
  if b.take 1 = str "/" then b
  else if a = [] ∨ endsWithChar '/' a then a ++ b
  else a ++ '/' :: b

/-- One step of the `for word in words` loop of
`SimpleHTTPRequestHandler.translate_path`: components containing a separator
(`os.path.dirname(word)` non-empty) or equal to `os.curdir`/`os.pardir` are
ignored. -/
def translateStep (p word : PStr) : PStr :=
  if pHas '/' word ∨ word = str "." ∨ word = str ".." then p
  else pJoin p word

/-- `SimpleHTTPRequestHandler.translate_path(self, path)` with
`self.directory = directory`. -/
def translate_path (directory : PStr) (path0 : PStr) : PStr :=
  let path1 := pBefore '?' path0
  let path2 := pBefore '#' path1
  let trailingSlash := endsWithChar '/' (pRstrip path2)
  let path3 := unquote path2
  let path4 := normpath path3
  let words := (pSplitAll '/' path4).filter (fun w => w ≠ [])
  let resolved := words.foldl translateStep directory
  if trailingSlash then resolved ++ ['/'] else resolved

/-! ## `urllib.parse.urlsplit` / `urlunsplit` (Python 3.11.6) -/
structure SplitResult where
  scheme : PStr
  netloc : PStr
  path : PStr
  query : PStr
  fragment : PStr
deriving DecidableEq

/-- `_UNSAFE_URL_BYTES_TO_REMOVE`: urlsplit removes every tab, CR and LF. -/
def removeUnsafe (s : PStr) : PStr :=
  s.filter (fun c => !(c == '\t' || c == '\r' || c == '\n'))

def schemeChars : PStr :=
  str "abcdefghijklmnopqrstuvwxyzABCDEFGHIJKLMNOPQRSTUVWXYZ0123456789+-."

/-- `urllib.parse.urlsplit` (the IPv6 bracket `ValueError` is not modelled;
no claim involves a `//`-netloc request path). -/
def urlsplitP (url0 : PStr) : SplitResult :=
  let url1 := removeUnsafe url0
  let pre := url1.takeWhile (· != ':')
  let schemeOk : Bool := pHas ':' url1 && pre ≠ [] &&
    (url1.head?.elim false Char.isAlpha) && pre.all (fun c => pHas c schemeChars)
  let scheme := if schemeOk then pre.map Char.toLower else []
  let url2 := if schemeOk then url1.drop (pre.length + 1) else url1
  let hasNetloc : Bool := url2.take 2 = str "//"
  let netloc :=
    if hasNetloc then
      (url2.drop 2).takeWhile (fun c => !(c == '/' || c == '?' || c == '#'))
    else []
  let url3 := if hasNetloc then (url2.drop 2).drop netloc.length else url2
  let fragment := if pHas '#' url3 then pAfter '#' url3 else []
  let url4 := if pHas '#' url3 then pBefore '#' url3 else url3
  let query := if pHas '?' url4 then pAfter '?' url4 else []
  let url5 := if pHas '?' url4 then pBefore '?' url4 else url4
  ⟨scheme, netloc, url5, query, fragment⟩

def usesNetloc : List PStr :=
  [str "", str "ftp", str "http", str "gopher", str "nntp", str "telnet",
   str "imap", str "wais", str "file", str "mms", str "https", str "shttp",
   str "snews", str "prospero", str "rtsp", str "rtspu", str "rsync",
   str "svn", str "svn+ssh", str "sftp", str "nfs", str "git", str "git+ssh",
   str "ws", str "wss"]

/-- `urllib.parse.urlunsplit`. -/
def urlunsplitP (r : SplitResult) : PStr :=
  let url := r.path
  let url :=
    if r.netloc ≠ [] ∨ (r.scheme ≠ [] ∧ r.scheme ∈ usesNetloc ∧ url.take 2 ≠ str "//") then
      str "//" ++ r.netloc ++
        (if url ≠ [] ∧ url.take 1 ≠ str "/" then '/' :: url else url)
    else url
  let url := if r.scheme ≠ [] then r.scheme ++ ':' :: url else url
  let url := if r.query ≠ [] then url ++ '?' :: r.query else url
  if r.fragment ≠ [] then url ++ '#' :: r.fragment else url

/-! ## HTML escaping, percent-encoding, directory sort -/
/-- `html.escape(s, quote=False)`: `&`, `<`, `>`. -/
def htmlEscape (s : PStr) : PStr :=
  s.flatMap (fun c =>
    if c = '&' then str "&amp;"
    else if c = '<' then str "&lt;"
    else if c = '>' then str "&gt;"
    else [c])

def hexDigitUpper (n : Nat) : Char :=
  if n < 10 then Char.ofNat ('0'.toNat + n) else Char.ofNat ('A'.toNat + n - 10)

/-- `urllib.parse.quote(s)` with the default `safe='/'`:
`_ALWAYS_SAFE` (letters, digits, `_.-~`) plus `/` kept, all else `%XX`. -/
def pQuote (s : PStr) : PStr :=
  s.flatMap (fun c =>
    if c.isAlphanum || c == '_' || c == '.' || c == '-' || c == '~' || c == '/' then [c]
    else ['%', hexDigitUpper (c.toNat / 16 % 16), hexDigitUpper (c.toNat % 16)])

/-- Strict lexicographic order on char lists by code point. -/
def pLt : PStr → PStr → Bool
  | [], [] => false
  | [], _ :: _ => true
  | _ :: _, [] => false
  | a :: as, b :: bs => if a < b then true else if b < a then false else pLt as bs

/-- Python `list.sort(key=lambda a: a.lower())`: stable sort comparing the
lowercased names by code point. -/
def lowerKeyLe (a b : PStr) : Bool :=
  !(pLt (b.map Char.toLower) (a.map Char.toLower))

def insSorted (x : PStr) : List PStr → List PStr
  | [] => [x]
  | y :: ys => if lowerKeyLe y x then y :: insSorted x ys else x :: y :: ys

def sortByLower (l : List PStr) : List PStr :=
  l.foldl (fun acc x => insSorted x acc) []

/-! ## Environment, request and response model

`Env` packages the filesystem and clock oracles the handler consults
(`os.path.isdir`, `os.path.isfile`, `os.path.islink`, `open`, `os.fstat`,
`os.listdir`, `mimetypes`, `date_time_string`, the `If-Modified-Since`
comparison).  `directory` is `self.directory` (the current working directory
at process start).  For a regular file the `st_size` reported by `fstat` and
the bytes delivered by `copyfile` coincide, so both come from `contents`. -/
structure Env where
  directory : PStr
  isdir : PStr → Bool
  isfile : PStr → Bool
  islink : PStr → Bool
  openOk : PStr → Bool
  contents : PStr → PStr
  listOk : PStr → Bool
  listdir : PStr → List PStr
  guessType : PStr → PStr
  dateStr : PStr
  lastModStr : PStr → PStr
  imsHit : PStr → Bool

/-- One parsed HTTP request as the handler sees it after `parse_request`:
`self.command`, `self.path`, and whether the `If-Modified-Since` /
`If-None-Match` headers are present. -/
structure Request where
  command : PStr
  path : PStr
  hasIMS : Bool
  hasINM : Bool
deriving DecidableEq

abbrev Header := PStr × PStr

structure Response where
  status : Nat
  headers : List Header
  body : PStr
deriving DecidableEq

/-- The two headers injected by `ThreadSafeHandler.end_headers` in
`src/serve.py` (lines 6-9), in the order they are sent. -/
def coopHeader : Header := (str "Cross-Origin-Opener-Policy", str "same-origin")

def coepHeader : Header := (str "Cross-Origin-Embedder-Policy", str "require-corp")

/-- `ThreadSafeHandler.end_headers`: appends the two fixed headers to the
header buffer, then `super().end_headers()` terminates the block. -/
def end_headers (buf : List Header) : List Header := buf ++ [coopHeader, coepHeader]

/-- `BaseHTTPRequestHandler.version_string()` on this install. -/
def serverVersionStr : PStr := str "SimpleHTTP/0.6 Python/3.11.6"

/-- Headers added by `send_response`: `Server` and `Date`. -/
def sendResponseHeaders (e : Env) : List Header :=
  [(str "Server", serverVersionStr), (str "Date", e.dateStr)]

def squote : Char := Char.ofNat 39

def natToP (n : Nat) : PStr := (Nat.repr n).data

/-- `DEFAULT_ERROR_MESSAGE % {code, message, explain}` (UTF-8 encoded; the
arguments are already HTML-escaped by `send_error`). -/
def errorBody (code : Nat) (message explain : PStr) : PStr :=
  str "<!DOCTYPE HTML>\n<html lang=\"en\">\n    <head>\n        <meta charset=\"utf-8\">\n        <title>Error response</title>\n    </head>\n    <body>\n        <h1>Error response</h1>\n        <p>Error code: " ++
  natToP code ++
  str "</p>\n        <p>Message: " ++ message ++
  str ".</p>\n        <p>Error code explanation: " ++ natToP code ++
  str " - " ++ explain ++ str ".</p>\n    </body>\n</html>\n"

/-- `BaseHTTPRequestHandler.send_error(code, message, explain)`; `command` is
the request method (a `HEAD` request suppresses the body). -/
def send_error (e : Env) (command : PStr) (code : Nat) (message explain : PStr) :
    Response :=
  let hdrs0 := sendResponseHeaders e ++ [(str "Connection", str "close")]
  let content := errorBody code (htmlEscape message) (htmlEscape explain)
  let hasBody : Bool := 200 ≤ code ∧ code ≠ 204 ∧ code ≠ 205 ∧ code ≠ 304
  let hdrs :=
    if hasBody then
      hdrs0 ++ [(str "Content-Type", str "text/html;charset=utf-8"),
                (str "Content-Length", natToP content.length)]
    else hdrs0
  { status := code, headers := end_headers hdrs,
    body := if command ≠ str "HEAD" ∧ hasBody then content else [] }

/-- The tail of `send_head` once `path` names the file to serve: MIME guess,
trailing-slash 404 (Issue17324), `open`, the `If-Modified-Since` 304 branch,
then the 200 response.  Returns the response (with any `send_error` body) and
the file object bytes for `do_GET` to copy. -/
def serveFile (e : Env) (req : Request) (path : PStr) : Response × Option PStr :=
  let _ctype := e.guessType path
  if endsWithChar '/' path then
    (send_error e req.command 404 (str "File not found")
      (str "Nothing matches the given URI"), none)
  else if e.openOk path = false then
    (send_error e req.command 404 (str "File not found")
      (str "Nothing matches the given URI"), none)
  else if req.hasIMS ∧ req.hasINM = false ∧ e.imsHit path then
    ({ status := 304, headers := end_headers (sendResponseHeaders e), body := [] },
     none)
  else
    ({ status := 200,
       headers := end_headers (sendResponseHeaders e ++
         [(str "Content-type", e.guessType path),
          (str "Content-Length", natToP (e.contents path).length),
          (str "Last-Modified", e.lastModStr path)]),
       body := [] },
     some (e.contents path))

/-- The `'\n'.join(r).encode(...)` payload of
`SimpleHTTPRequestHandler.list_directory` (filesystem encoding `utf-8`). -/
def listingBody (e : Env) (reqPath : PStr) (path : PStr) : PStr :=
  let lst := sortByLower (e.listdir path)
  let displaypath := htmlEscape (unquote reqPath)
  let title := str "Directory listing for " ++ displaypath
  let items := lst.map (fun name =>
    let fullname := pJoin path name
    let linkname := if e.isdir fullname then name ++ ['/'] else name
    let displayname :=
      if e.islink fullname then name ++ ['@']
      else if e.isdir fullname then name ++ ['/']
      else name
    str "<li><a href=\"" ++ pQuote linkname ++ str "\">" ++
      htmlEscape displayname ++ str "</a></li>")
  let rows :=
    [str "<!DOCTYPE HTML>", str "<html lang=\"en\">", str "<head>",
     str "<meta charset=\"utf-8\">",
     str "<title>" ++ title ++ str "</title>\n</head>",
     str "<body>\n<h1>" ++ title ++ str "</h1>",
     str "<hr>\n<ul>"] ++ items ++ [str "</ul>\n<hr>\n</body>\n</html>\n"]
  List.intercalate (str "\n") rows

/-- `SimpleHTTPRequestHandler.list_directory`. -/
def list_directory (e : Env) (req : Request) (path : PStr) : Response × Option PStr :=
  if e.listOk path = false then
    (send_error e req.command 404 (str "No permission to list directory")
      (str "Nothing matches the given URI"), none)
  else
    let encoded := listingBody e req.path path
    ({ status := 200,
       headers := end_headers (sendResponseHeaders e ++
         [(str "Content-type", str "text/html; charset=utf-8"),
          (str "Content-Length", natToP encoded.length)]),
       body := [] },
     some encoded)

/-- `SimpleHTTPRequestHandler.send_head`. -/
def send_head (e : Env) (req : Request) : Response × Option PStr :=
  let path := translate_path e.directory req.path
  if e.isdir path then
    let parts := urlsplitP req.path
    if endsWithChar '/' parts.path = false then
      let newUrl := urlunsplitP { parts with path := parts.path ++ ['/'] }
      ({ status := 301,
         headers := end_headers (sendResponseHeaders e ++
           [(str "Location", newUrl), (str "Content-Length", str "0")]),
         body := [] },
       none)
    else
      let idx1 := pJoin path (str "index.html")
      let idx2 := pJoin path (str "index.htm")
      if e.isfile idx1 then serveFile e req idx1
      else if e.isfile idx2 then serveFile e req idx2
      else list_directory e req path
  else serveFile e req path

/-- `send_error(501, "Unsupported method (%r)" % command)` message text. -/
def unsupportedMsg (command : PStr) : PStr :=
  str "Unsupported method (" ++ squote :: command ++ squote :: str ")"

/-- `BaseHTTPRequestHandler.handle_one_request` after a request line has been
parsed: dispatch on `do_<command>` (only `do_GET` and `do_HEAD` exist on
`ThreadSafeHandler`, so anything else is a 501), then `do_GET` copies the file
object returned by `send_head` into the body while `do_HEAD` discards it. -/
def handleRequest (e : Env) (req : Request) : Response :=
  if req.command ≠ str "GET" ∧ req.command ≠ str "HEAD" then
    send_error e req.command 501 (unsupportedMsg req.command)
      (str "Server does not support this operation")
  else
    let hr := send_head e req
    match hr.2 with
    | some bytes =>
      if req.command = str "GET" then
        { hr.1 with body := hr.1.body ++ bytes }
      else hr.1
    | none => hr.1

/-! ## The serve.py top level -/
/-- `PORT = 8000` (src/serve.py line 11). -/
def PORT : Nat := 8000

/-- The host part of the bind address `("", PORT)`: the empty string, i.e.
all available interfaces. -/
def serverHost : PStr := []

/-- The startup message printed on line 13 of src/serve.py. -/
def startupMsg : PStr :=
  str "Serving with thread-safe headers at http://localhost:" ++ natToP PORT

/-- Events observable at the server socket level: a connection is accepted,
or a complete response is written back on connection `i`. -/
inductive ServerEvent where
  | accept (i : Nat)
  | respond (i : Nat) (r : Response)
deriving DecidableEq

/-- `socketserver.TCPServer.serve_forever` with the default synchronous
`process_request`: each accepted connection is handled to completion
(`finish_request` runs the handler inline) before the accept loop returns to
`select`, so pending connections wait.  `conns` is the queue of pending
connections, each carrying one request. -/
def tcpServeFrom (e : Env) (i : Nat) : List Request → List ServerEvent
  | [] => []
  | r :: rs =>
    ServerEvent.accept i :: ServerEvent.respond i (handleRequest e r) ::
      tcpServeFrom e (i + 1) rs

def tcpServe (e : Env) (conns : List Request) : List ServerEvent :=
  tcpServeFrom e 0 conns

/-! ## A concrete test filesystem

Root `/root` containing the regular file `f.txt` (5 bytes, `hello`) and the
subdirectory `sub` with an `index.html`.  Used by examples, witnesses and
counterexamples below. -/
def testEnv : Env where
  directory := str "/root"
  isdir := fun p => p == str "/root" || p == str "/root/" ||
    p == str "/root/sub" || p == str "/root/sub/"
  isfile := fun p => p == str "/root/f.txt" || p == str "/root/sub/index.html"
  islink := fun _ => false
  openOk := fun p => p == str "/root/f.txt" || p == str "/root/sub/index.html"
  contents := fun p =>
    if p == str "/root/f.txt" then str "hello" else str "<h1>idx</h1>"
  listOk := fun p => p == str "/root" || p == str "/root/"
  listdir := fun _ => [str "f.txt", str "sub"]
  guessType := fun _ => str "text/plain"
  dateStr := str "Sun, 12 Oct 2025 00:00:00 GMT"
  lastModStr := fun _ => str "Sun, 12 Oct 2025 00:00:00 GMT"
  imsHit := fun _ => false

def getReq (p : String) : Request := ⟨str "GET", str p, false, false⟩

/-! ## Claim C1: the two injected headers, on every response, exactly once

Every code path of the handler builds its header block as `end_headers buf`
for a buffer `buf` whose header names are drawn from `Server`, `Date`,
`Connection`, `Content-Type`, `Content-type`, `Content-Length`,
`Last-Modified`, `Location` — never the two injected names.  `noInjected`
captures that side condition. -/
def noInjected (buf : List Header) : Prop :=
  ∀ p ∈ buf, p.1 ≠ coopHeader.1 ∧ p.1 ≠ coepHeader.1

/-! ## Claim C6: filesystem read failure

The claim says a failing filesystem read yields `500 Internal Server Error`.
The code does not: `send_head` wraps `open(path, 'rb')` in
`except OSError: send_error(404, "File not found")`, so a permission error or
a file deleted between resolution and open produces a **404**, and no path of
`SimpleHTTPRequestHandler` produces a 500 (a read failure after the headers
are sent propagates and tears down the connection without any status). -/
/-- A root with a file `locked.txt` that exists but cannot be opened
(permission denied): `open` raises `OSError`, so `openOk` is false. -/
def permEnv : Env where
  directory := str "/root"
  isdir := fun p => p == str "/root" || p == str "/root/"
  isfile := fun p => p == str "/root/locked.txt"
  islink := fun _ => false
  openOk := fun _ => false
  contents := fun _ => []
  listOk := fun _ => false
  listdir := fun _ => []
  guessType := fun _ => str "text/plain"
  dateStr := str "Sun, 12 Oct 2025 00:00:00 GMT"
  lastModStr := fun _ => str "Sun, 12 Oct 2025 00:00:00 GMT"
  imsHit := fun _ => false

/-! ## Claim C3: path containment

`translate_path` joins only separator-free, non-`.`/`..` components onto
`self.directory`, so the resolved target is always the root itself or a path
strictly below it (`root ++ '/' :: …`). -/
def UnderRoot (root p : PStr) : Prop :=
  p = root ∨ ∃ r, p = root ++ '/' :: r

/-! ## Noninterference: the response depends only on the filesystem under
the served root

`agreeAt e1 e2 p` says the two environments' filesystem oracles agree at path
`p`.  If they agree at every path under the root (and share clock, mimetypes
and root), the handler cannot distinguish them: no byte of any response comes
from outside the served root. -/
def agreeAt (e1 e2 : Env) (p : PStr) : Prop :=
  e1.isdir p = e2.isdir p ∧ e1.isfile p = e2.isfile p ∧ e1.islink p = e2.islink p ∧
  e1.openOk p = e2.openOk p ∧ e1.contents p = e2.contents p ∧
  e1.listOk p = e2.listOk p ∧ e1.listdir p = e2.listdir p ∧
  e1.lastModStr p = e2.lastModStr p ∧ e1.imsHit p = e2.imsHit p

/-- A filesystem identical to `testEnv` under `/root` but with a readable
`/etc/passwd` outside the root. -/
def outsideEnv : Env where
  directory := str "/root"
  isdir := testEnv.isdir
  isfile := fun p => testEnv.isfile p || p == str "/etc/passwd"
  islink := testEnv.islink
  openOk := fun p => testEnv.openOk p || p == str "/etc/passwd"
  contents := fun p =>
    if p == str "/etc/passwd" then str "root:x:0:0:root:/root:/bin/bash"
    else testEnv.contents p
  listOk := testEnv.listOk
  listdir := testEnv.listdir
  guessType := testEnv.guessType
  dateStr := testEnv.dateStr
  lastModStr := testEnv.lastModStr
  imsHit := testEnv.imsHit

example : unquote (str "%2e%2e/%7a%") = str "../z%" := by decide

example : normpath (str "/../../etc/passwd") = str "/etc/passwd" := by decide

example : normpath (str "//a/../../b") = str "//b" := by decide

example : normpath [] = str "." := by decide

example : translate_path (str "/root") (str "/../../etc/passwd") =
    str "/root/etc/passwd" := by decide

example : translate_path (str "/root") (str "/f.txt?x=1") =
    str "/root/f.txt" := by decide

example : translate_path (str "/root") (str "/sub/") = str "/root/sub/" := by decide

example : urlsplitP (str "/sub?x=1") = ⟨[], [], str "/sub", str "x=1", []⟩ := by decide

example : urlsplitP (str "/a#b?c") = ⟨[], [], str "/a", [], str "b?c"⟩ := by decide

example : urlunsplitP ⟨[], [], str "/sub/", str "x=1", []⟩ = str "/sub/?x=1" := by decide

example : urlunsplitP ⟨[], [], str "/sub/", [], []⟩ = str "/sub/" := by decide

example : sortByLower [str "b.txt", str "A.txt", str "a0"] =
    [str "A.txt", str "a0", str "b.txt"] := by decide

example : pQuote (str "a b/c") = str "a%20b/c" := by decide

example : htmlEscape (str "a<b>&c") = str "a&lt;b&gt;&amp;c" := by decide

example : (handleRequest testEnv (getReq "/f.txt")).status = 200 := by decide

example : (handleRequest testEnv (getReq "/f.txt")).body = str "hello" := by decide

example : (handleRequest testEnv (getReq "/f.txt?x=1")).body = str "hello" := by decide

example : (handleRequest testEnv (getReq "/missing")).status = 404 := by decide

example : (handleRequest testEnv (getReq "/../../etc/passwd")).status = 404 := by decide

example : (handleRequest testEnv ⟨str "POST", str "/f.txt", false, false⟩).status = 501 := by decide

example : (handleRequest testEnv (getReq "/sub")).status = 301 := by decide

example : (str "Location", str "/sub/") ∈ (handleRequest testEnv (getReq "/sub")).headers := by decide

example : (handleRequest testEnv (getReq "/sub/")).status = 200 := by decide

example : (handleRequest testEnv (getReq "/sub/")).body = str "<h1>idx</h1>" := by decide

example : (handleRequest testEnv (getReq "/")).status = 200 := by decide

example : coopHeader ∈ (handleRequest testEnv (getReq "/missing")).headers := by decide

example : coepHeader ∈ (handleRequest testEnv (getReq "/sub")).headers := by decide

example : (handleRequest testEnv (getReq "/missing")).body.length = 335 := by decide

example : (handleRequest testEnv ⟨str "POST", str "/x", false, false⟩).body.length = 357 := by decide

example : (handleRequest testEnv (getReq "/")).body =
    str "<!DOCTYPE HTML>\n<html lang=\"en\">\n<head>\n<meta charset=\"utf-8\">\n<title>Directory listing for /</title>\n</head>\n<body>\n<h1>Directory listing for /</h1>\n<hr>\n<ul>\n<li><a href=\"f.txt\">f.txt</a></li>\n<li><a href=\"sub/\">sub/</a></li>\n</ul>\n<hr>\n</body>\n</html>\n" := by decide

/-! ## Claim C5: unsupported methods get 501 -/
/-- C5: for every request whose method is neither `GET` nor `HEAD` (e.g.
`POST`), to any path and against any filesystem, the handler responds with
status 501 Not Implemented. -/
theorem claim5_method_rejection (e : Env) (req : Request)
    (h1 : req.command ≠ str "GET") (h2 : req.command ≠ str "HEAD") :
    (handleRequest e req).status = 501 := by
  unfold handleRequest
  split
  · rfl
  · next hc => exact absurd ⟨h1, h2⟩ hc

/-- C5 witness: a `POST` to `/f.txt` on the test filesystem returns 501. -/
theorem claim5_method_rejection_witness :
    (handleRequest testEnv ⟨str "POST", str "/f.txt", false, false⟩).status = 501 :=
  claim5_method_rejection testEnv ⟨str "POST", str "/f.txt", false, false⟩
    (by decide) (by decide)

/-! ## Claim C2: concurrency (code bug: TCPServer is synchronous) -/
theorem tcpServeFrom_length (e : Env) (i : Nat) (conns : List Request) :
    (tcpServeFrom e i conns).length = 2 * conns.length := by
  induction conns generalizing i with
  | nil => rfl
  | cons r rs ih =>
    simp only [tcpServeFrom, List.length_cons, ih]
    ring

/-- C2 (against the code as written): `socketserver.TCPServer` runs
`finish_request` synchronously inside the accept loop, so with two pending
connections the second is accepted, handled and answered only after the first
connection's complete response has been produced — a slow first client delays
the second client's response, contradicting the concurrency contract. -/
theorem claim2_sequential_service (e : Env) (r0 r1 : Request) :
    tcpServe e [r0, r1] =
      [ServerEvent.accept 0, ServerEvent.respond 0 (handleRequest e r0),
       ServerEvent.accept 1, ServerEvent.respond 1 (handleRequest e r1)] := rfl

/-! ## Claim C8: port, bind address, startup message -/
/-- C8: the configured port is 8000, the bind host is the empty string (all
interfaces), the startup message states the URL `http://localhost:8000`, and
the serve loop services every queued connection (two events — accept and
respond — per connection). -/
theorem claim8_startup :
    PORT = 8000 ∧ serverHost = [] ∧
    startupMsg = str "Serving with thread-safe headers at http://localhost:8000" ∧
    ∀ (e : Env) (conns : List Request),
      (tcpServe e conns).length = 2 * conns.length :=
  ⟨rfl, rfl, by decide, fun e conns => tcpServeFrom_length e 0 conns⟩

theorem noInjected_nil : noInjected [] := fun p hp => absurd hp (List.not_mem_nil p)

theorem noInjected_cons {k v : PStr} {l : List Header}
    (h1 : k ≠ coopHeader.1) (h2 : k ≠ coepHeader.1) (hl : noInjected l) :
    noInjected ((k, v) :: l) := by
  intro p hp
  rcases List.mem_cons.mp hp with rfl | hm
  · exact ⟨h1, h2⟩
  · exact hl p hm

theorem noInjected_append {a b : List Header} (ha : noInjected a)
    (hb : noInjected b) : noInjected (a ++ b) := by
  intro p hp
  rcases List.mem_append.mp hp with hm | hm
  · exact ha p hm
  · exact hb p hm

theorem noInjected_sendResponse (e : Env) : noInjected (sendResponseHeaders e) :=
  noInjected_cons (by decide) (by decide)
    (noInjected_cons (by decide) (by decide) noInjected_nil)

theorem send_error_shape (e : Env) (cmd : PStr) (code : Nat) (msg expl : PStr) :
    ∃ buf, (send_error e cmd code msg expl).headers = end_headers buf ∧
      noInjected buf := by
  unfold send_error
  dsimp only
  split
  · exact ⟨_, rfl,
      noInjected_append (noInjected_append (noInjected_sendResponse e)
        (noInjected_cons (by decide) (by decide) noInjected_nil))
        (noInjected_cons (by decide) (by decide)
          (noInjected_cons (by decide) (by decide) noInjected_nil))⟩
  · exact ⟨_, rfl,
      noInjected_append (noInjected_sendResponse e)
        (noInjected_cons (by decide) (by decide) noInjected_nil)⟩

theorem serveFile_shape (e : Env) (req : Request) (path : PStr) :
    ∃ buf, (serveFile e req path).1.headers = end_headers buf ∧ noInjected buf := by
  unfold serveFile
  dsimp only
  split
  · exact send_error_shape e req.command 404 _ _
  · split
    · exact send_error_shape e req.command 404 _ _
    · split
      · exact ⟨_, rfl, noInjected_sendResponse e⟩
      · exact ⟨_, rfl,
          noInjected_append (noInjected_sendResponse e)
            (noInjected_cons (by decide) (by decide)
              (noInjected_cons (by decide) (by decide)
                (noInjected_cons (by decide) (by decide) noInjected_nil)))⟩

theorem list_directory_shape (e : Env) (req : Request) (path : PStr) :
    ∃ buf, (list_directory e req path).1.headers = end_headers buf ∧
      noInjected buf := by
  unfold list_directory
  dsimp only
  split
  · exact send_error_shape e req.command 404 _ _
  · exact ⟨_, rfl,
      noInjected_append (noInjected_sendResponse e)
        (noInjected_cons (by decide) (by decide)
          (noInjected_cons (by decide) (by decide) noInjected_nil))⟩

theorem send_head_shape (e : Env) (req : Request) :
    ∃ buf, (send_head e req).1.headers = end_headers buf ∧ noInjected buf := by
  unfold send_head
  dsimp only
  split
  · split
    · exact ⟨_, rfl,
        noInjected_append (noInjected_sendResponse e)
          (noInjected_cons (by decide) (by decide)
            (noInjected_cons (by decide) (by decide) noInjected_nil))⟩
    · split
      · exact serveFile_shape e req _
      · split
        · exact serveFile_shape e req _
        · exact list_directory_shape e req _
  · exact serveFile_shape e req _

theorem handleRequest_headers (e : Env) (req : Request) :
    (handleRequest e req).headers =
      (if req.command ≠ str "GET" ∧ req.command ≠ str "HEAD" then
        (send_error e req.command 501 (unsupportedMsg req.command)
          (str "Server does not support this operation")).headers
      else (send_head e req).1.headers) := by
  unfold handleRequest
  split
  · rfl
  · dsimp only
    split
    · split <;> rfl
    · rfl

theorem handleRequest_shape (e : Env) (req : Request) :
    ∃ buf, (handleRequest e req).headers = end_headers buf ∧ noInjected buf := by
  rw [handleRequest_headers]
  split
  · exact send_error_shape e req.command 501 _ _
  · exact send_head_shape e req

theorem end_headers_counts (buf : List Header) (h : noInjected buf) :
    (end_headers buf).count coopHeader = 1 ∧
    (end_headers buf).count coepHeader = 1 ∧
    (end_headers buf).countP (fun p => p.1 == coopHeader.1) = 1 ∧
    (end_headers buf).countP (fun p => p.1 == coepHeader.1) = 1 := by
  have hco : buf.count coopHeader = 0 := by
    rw [List.count_eq_zero]
    intro hmem
    exact (h _ hmem).1 rfl
  have hce : buf.count coepHeader = 0 := by
    rw [List.count_eq_zero]
    intro hmem
    exact (h _ hmem).2 rfl
  have hpo : buf.countP (fun p => p.1 == coopHeader.1) = 0 := by
    rw [List.countP_eq_zero]
    intro p hp
    simpa using (h p hp).1
  have hpe : buf.countP (fun p => p.1 == coepHeader.1) = 0 := by
    rw [List.countP_eq_zero]
    intro p hp
    simpa using (h p hp).2
  refine ⟨?_, ?_, ?_, ?_⟩
  · rw [end_headers, List.count_append, hco]; decide
  · rw [end_headers, List.count_append, hce]; decide
  · rw [end_headers, List.countP_append, hpo]; decide
  · rw [end_headers, List.countP_append, hpe]; decide

/-- C1: every response the handler returns — 200 file responses, directory
listings, 404s, 501s, 301 redirects, 304s — carries
`Cross-Origin-Opener-Policy: same-origin` and
`Cross-Origin-Embedder-Policy: require-corp`, each exactly once (the exact
name/value pair occurs once, and no other header uses either name); the same
holds for every response produced by `send_error` (which also covers the
400/414 protocol-error paths of `handle_one_request`). -/
theorem claim1_header_invariant :
    (∀ (e : Env) (req : Request),
      (handleRequest e req).headers.count coopHeader = 1 ∧
      (handleRequest e req).headers.count coepHeader = 1 ∧
      (handleRequest e req).headers.countP (fun p => p.1 == coopHeader.1) = 1 ∧
      (handleRequest e req).headers.countP (fun p => p.1 == coepHeader.1) = 1) ∧
    (∀ (e : Env) (cmd : PStr) (code : Nat) (msg expl : PStr),
      (send_error e cmd code msg expl).headers.count coopHeader = 1 ∧
      (send_error e cmd code msg expl).headers.count coepHeader = 1) := by
  constructor
  · intro e req
    obtain ⟨buf, heq, hni⟩ := handleRequest_shape e req
    rw [heq]
    exact end_headers_counts buf hni
  · intro e cmd code msg expl
    obtain ⟨buf, heq, hni⟩ := send_error_shape e cmd code msg expl
    rw [heq]
    exact ⟨(end_headers_counts buf hni).1, (end_headers_counts buf hni).2.1⟩

/-! ## Reduction lemmas for the dispatch and file-serving paths -/
theorem handleRequest_of_none (e : Env) (req : Request)
    (hg : ¬(req.command ≠ str "GET" ∧ req.command ≠ str "HEAD"))
    (h : (send_head e req).2 = none) :
    handleRequest e req = (send_head e req).1 := by
  unfold handleRequest
  rw [if_neg hg]
  dsimp only
  rw [h]

theorem handleRequest_of_some (e : Env) (req : Request) (bytes : PStr)
    (hGET : req.command = str "GET")
    (h : (send_head e req).2 = some bytes) :
    handleRequest e req =
      { (send_head e req).1 with body := (send_head e req).1.body ++ bytes } := by
  unfold handleRequest
  rw [if_neg (fun hc => hc.1 hGET)]
  dsimp only
  rw [h]
  dsimp only
  rw [if_pos hGET]

theorem send_head_nondir (e : Env) (req : Request)
    (hdir : e.isdir (translate_path e.directory req.path) = false) :
    send_head e req = serveFile e req (translate_path e.directory req.path) := by
  unfold send_head
  simp [hdir]

theorem serveFile_404_open (e : Env) (req : Request) (path : PStr)
    (hopen : e.openOk path = false) :
    serveFile e req path =
      (send_error e req.command 404 (str "File not found")
        (str "Nothing matches the given URI"), none) := by
  unfold serveFile
  simp [hopen, ite_self]

theorem serveFile_200 (e : Env) (req : Request) (path : PStr)
    (hims : req.hasIMS = false)
    (hslash : endsWithChar '/' path = false)
    (hopen : e.openOk path = true) :
    serveFile e req path =
      ({ status := 200,
         headers := end_headers (sendResponseHeaders e ++
           [(str "Content-type", e.guessType path),
            (str "Content-Length", natToP (e.contents path).length),
            (str "Last-Modified", e.lastModStr path)]),
         body := [] },
       some (e.contents path)) := by
  unfold serveFile
  simp [hslash, hopen, hims]

/-! ## Claim C4: content fidelity for regular files -/
/-- C4: for a regular file under the served root (the resolved target is not
a directory, has no trailing slash, and opens successfully), a plain GET
request (no `If-Modified-Since`) returns status 200, a `Content-Length`
header equal to the file's size, and a body byte-identical to the file's
contents. -/
theorem claim4_content_fidelity (e : Env) (req : Request)
    (hm : req.command = str "GET")
    (hims : req.hasIMS = false)
    (hdir : e.isdir (translate_path e.directory req.path) = false)
    (hslash : endsWithChar '/' (translate_path e.directory req.path) = false)
    (hopen : e.openOk (translate_path e.directory req.path) = true) :
    (handleRequest e req).status = 200 ∧
    (str "Content-Length",
      natToP (e.contents (translate_path e.directory req.path)).length) ∈
      (handleRequest e req).headers ∧
    (handleRequest e req).body =
      e.contents (translate_path e.directory req.path) := by
  have hsh := send_head_nondir e req hdir
  have hsf := serveFile_200 e req (translate_path e.directory req.path) hims hslash hopen
  have h2 : (send_head e req).2 =
      some (e.contents (translate_path e.directory req.path)) := by
    rw [hsh, hsf]
  rw [handleRequest_of_some e req _ hm h2, hsh, hsf]
  refine ⟨rfl, ?_, by simp⟩
  simp [end_headers, sendResponseHeaders]

/-- C4 witness: `GET /f.txt` on the test filesystem returns 200,
`Content-Length: 5` and the body `hello`. -/
theorem claim4_content_fidelity_witness :
    (handleRequest testEnv (getReq "/f.txt")).status = 200 ∧
    (str "Content-Length",
      natToP (testEnv.contents
        (translate_path testEnv.directory (getReq "/f.txt").path)).length) ∈
      (handleRequest testEnv (getReq "/f.txt")).headers ∧
    (handleRequest testEnv (getReq "/f.txt")).body =
      testEnv.contents (translate_path testEnv.directory (getReq "/f.txt").path) :=
  claim4_content_fidelity testEnv (getReq "/f.txt") rfl rfl
    (by decide) (by decide) (by decide)

/-- C6 counterexample: a GET for a file whose open fails with a permission
error is answered with status 404, not the claimed 500. -/
theorem claim6_counterexample :
    (handleRequest permEnv (getReq "/locked.txt")).status = 404 ∧
    ¬(handleRequest permEnv (getReq "/locked.txt")).status = 500 := by decide

/-- C6 amended: for every GET or HEAD request whose resolved target is not a
directory and whose filesystem open fails (permission error, race-deleted
file), the server responds 404 Not Found — in particular never 500. -/
theorem claim6_open_failure_404 (e : Env) (req : Request)
    (hm : req.command = str "GET" ∨ req.command = str "HEAD")
    (hdir : e.isdir (translate_path e.directory req.path) = false)
    (hopen : e.openOk (translate_path e.directory req.path) = false) :
    (handleRequest e req).status = 404 ∧ (handleRequest e req).status ≠ 500 := by
  have hg : ¬(req.command ≠ str "GET" ∧ req.command ≠ str "HEAD") := by
    rcases hm with h | h
    · exact fun hc => hc.1 h
    · exact fun hc => hc.2 h
  have hsh := send_head_nondir e req hdir
  have hsf := serveFile_404_open e req _ hopen
  have h2 : (send_head e req).2 = none := by rw [hsh, hsf]
  rw [handleRequest_of_none e req hg h2, hsh, hsf]
  exact ⟨rfl, fun h => absurd h (by decide : ¬(404 : Nat) = 500)⟩

/-- C6 amended-claim witness: the permission-denied GET from the
counterexample environment, via the general theorem. -/
theorem claim6_open_failure_404_witness :
    (handleRequest permEnv (getReq "/locked.txt")).status = 404 ∧
    (handleRequest permEnv (getReq "/locked.txt")).status ≠ 500 :=
  claim6_open_failure_404 permEnv (getReq "/locked.txt")
    (Or.inl rfl) (by decide) (by decide)

/-! ## Directory-branch reduction lemmas -/
theorem send_head_dir_noslash (e : Env) (req : Request)
    (hdir : e.isdir (translate_path e.directory req.path) = true)
    (hns : endsWithChar '/' (urlsplitP req.path).path = false) :
    send_head e req =
      ({ status := 301,
         headers := end_headers (sendResponseHeaders e ++
           [(str "Location", urlunsplitP { urlsplitP req.path with
              path := (urlsplitP req.path).path ++ ['/'] }),
            (str "Content-Length", str "0")]),
         body := [] },
       none) := by
  unfold send_head
  simp [hdir, hns]

theorem send_head_dir_idx1 (e : Env) (req : Request)
    (hdir : e.isdir (translate_path e.directory req.path) = true)
    (hsl : endsWithChar '/' (urlsplitP req.path).path = true)
    (hf1 : e.isfile (pJoin (translate_path e.directory req.path) (str "index.html")) = true) :
    send_head e req =
      serveFile e req (pJoin (translate_path e.directory req.path) (str "index.html")) := by
  unfold send_head
  simp [hdir, hsl, hf1]

theorem send_head_dir_idx2 (e : Env) (req : Request)
    (hdir : e.isdir (translate_path e.directory req.path) = true)
    (hsl : endsWithChar '/' (urlsplitP req.path).path = true)
    (hf1 : e.isfile (pJoin (translate_path e.directory req.path) (str "index.html")) = false)
    (hf2 : e.isfile (pJoin (translate_path e.directory req.path) (str "index.htm")) = true) :
    send_head e req =
      serveFile e req (pJoin (translate_path e.directory req.path) (str "index.htm")) := by
  unfold send_head
  simp [hdir, hsl, hf1, hf2]

theorem send_head_dir_listing (e : Env) (req : Request)
    (hdir : e.isdir (translate_path e.directory req.path) = true)
    (hsl : endsWithChar '/' (urlsplitP req.path).path = true)
    (hf1 : e.isfile (pJoin (translate_path e.directory req.path) (str "index.html")) = false)
    (hf2 : e.isfile (pJoin (translate_path e.directory req.path) (str "index.htm")) = false) :
    send_head e req = list_directory e req (translate_path e.directory req.path) := by
  unfold send_head
  simp [hdir, hsl, hf1, hf2]

theorem list_directory_200 (e : Env) (req : Request) (path : PStr)
    (hlist : e.listOk path = true) :
    list_directory e req path =
      ({ status := 200,
         headers := end_headers (sendResponseHeaders e ++
           [(str "Content-type", str "text/html; charset=utf-8"),
            (str "Content-Length", natToP (listingBody e req.path path).length)]),
         body := [] },
       some (listingBody e req.path path)) := by
  unfold list_directory
  simp [hlist]

theorem getLast?_ne_none {b : PStr} (hb : b ≠ []) : b.getLast? ≠ none := by
  rcases b with _ | ⟨x, xs⟩
  · exact absurd rfl hb
  · exact fun h => Option.noConfusion h

theorem endsWith_append (c : Char) (a b : PStr) (hb : b ≠ []) :
    endsWithChar c (a ++ b) = endsWithChar c b := by
  unfold endsWithChar
  rw [List.getLast?_append]
  rcases h : b.getLast? with _ | x
  · exact absurd h (getLast?_ne_none hb)
  · rfl

theorem endsWith_pJoin (a b : PStr) (hb : b ≠ []) :
    endsWithChar '/' (pJoin a b) = endsWithChar '/' b := by
  unfold pJoin
  split
  · rfl
  · split
    · exact endsWith_append '/' a b hb
    · rw [endsWith_append '/' a ('/' :: b) (by simp)]
      unfold endsWithChar
      rcases b with _ | ⟨y, ys⟩
      · exact absurd rfl hb
      · rw [List.getLast?_cons_cons]

/-! ## urlsplit/urlunsplit on plain request paths -/
theorem pHas_forall {c : Char} {s : PStr} (h : pHas c s = false) :
    ∀ x ∈ s, ¬(x = c) := by
  intro x hx hxc
  subst hxc
  have : s.any (· == x) = true := List.any_eq_true.mpr ⟨x, hx, by simp⟩
  rw [pHas] at h
  rw [h] at this
  exact Bool.noConfusion this

theorem removeUnsafe_id {p : PStr} (ht : pHas '\t' p = false)
    (hr : pHas '\r' p = false) (hn : pHas '\n' p = false) :
    removeUnsafe p = p := by
  rw [removeUnsafe, List.filter_eq_self]
  intro a ha
  have h1 := pHas_forall ht a ha
  have h2 := pHas_forall hr a ha
  have h3 := pHas_forall hn a ha
  simp [h1, h2, h3]

theorem urlsplit_plain (p : PStr)
    (hc : pHas ':' p = false) (hq : pHas '?' p = false) (hf : pHas '#' p = false)
    (ht : pHas '\t' p = false) (hr : pHas '\r' p = false) (hn : pHas '\n' p = false)
    (hs : p.take 2 ≠ str "//") :
    urlsplitP p = ⟨[], [], p, [], []⟩ := by
  unfold urlsplitP
  rw [removeUnsafe_id ht hr hn]
  simp only [hc, Bool.false_and, Bool.and_false, if_false, Bool.false_eq_true,
    if_neg hs, ite_false]
  have hq4 : pHas '?' p = false := hq
  simp [hf, hq4, hs]

theorem urlunsplit_plain (p : PStr) :
    urlunsplitP ⟨[], [], p, [], []⟩ = p := by
  unfold urlunsplitP
  simp

/-! ## Claim C9: 301 redirect for directories without trailing slash -/
/-- C9: a GET request whose resolved target is a directory but whose URL path
does not end in `/` is answered with status 301, a `Location` header whose
value is the request URL with `/` appended to its path component (for a plain
path — no query, fragment, colon, netloc or unsafe bytes — that is literally
the request path plus `/`), and the redirect also carries both injected
security headers exactly once. -/
theorem claim9_dir_redirect (e : Env) (req : Request)
    (hm : req.command = str "GET")
    (hdir : e.isdir (translate_path e.directory req.path) = true)
    (hns : endsWithChar '/' (urlsplitP req.path).path = false) :
    (handleRequest e req).status = 301 ∧
    (str "Location", urlunsplitP { urlsplitP req.path with
       path := (urlsplitP req.path).path ++ ['/'] }) ∈ (handleRequest e req).headers ∧
    (handleRequest e req).headers.count coopHeader = 1 ∧
    (handleRequest e req).headers.count coepHeader = 1 ∧
    (pHas ':' req.path = false → pHas '?' req.path = false →
     pHas '#' req.path = false → pHas '\t' req.path = false →
     pHas '\r' req.path = false → pHas '\n' req.path = false →
     req.path.take 2 ≠ str "//" →
     (str "Location", req.path ++ ['/']) ∈ (handleRequest e req).headers) := by
  have h301 := send_head_dir_noslash e req hdir hns
  have h2 : (send_head e req).2 = none := by rw [h301]
  rw [handleRequest_of_none e req (fun hc => hc.1 hm) h2, h301]
  have hni : noInjected (sendResponseHeaders e ++
      [(str "Location", urlunsplitP { urlsplitP req.path with
         path := (urlsplitP req.path).path ++ ['/'] }),
       (str "Content-Length", str "0")]) :=
    noInjected_append (noInjected_sendResponse e)
      (noInjected_cons (by decide) (by decide)
        (noInjected_cons (by decide) (by decide) noInjected_nil))
  refine ⟨rfl, ?_, (end_headers_counts _ hni).1, (end_headers_counts _ hni).2.1, ?_⟩
  · simp [end_headers, sendResponseHeaders]
  · intro hc hq hf ht hr hn hs
    rw [urlsplit_plain req.path hc hq hf ht hr hn hs]
    simp [end_headers, sendResponseHeaders, urlunsplit_plain]

/-- C9 witness: `GET /sub` on the test filesystem (where `/root/sub` is a
directory) produces a 301 whose `Location` is `/sub/`, with both injected
headers present once. -/
theorem claim9_dir_redirect_witness :
    (handleRequest testEnv (getReq "/sub")).status = 301 ∧
    (str "Location", urlunsplitP { urlsplitP (str "/sub") with
       path := (urlsplitP (str "/sub")).path ++ ['/'] }) ∈
      (handleRequest testEnv (getReq "/sub")).headers ∧
    (handleRequest testEnv (getReq "/sub")).headers.count coopHeader = 1 ∧
    (handleRequest testEnv (getReq "/sub")).headers.count coepHeader = 1 ∧
    (str "Location", str "/sub" ++ ['/']) ∈ (handleRequest testEnv (getReq "/sub")).headers := by
  have h := claim9_dir_redirect testEnv (getReq "/sub") rfl (by decide) (by decide)
  exact ⟨h.1, h.2.1, h.2.2.1, h.2.2.2.1,
    h.2.2.2.2 (by decide) (by decide) (by decide) (by decide) (by decide)
      (by decide) (by decide)⟩

/-! ## Claim C7: directories — index file or listing

The claim as stated fails: for a GET whose path resolves to an existing
directory but does not end in `/`, `send_head` responds with a 301 redirect
and an empty body — it serves neither an index file nor a listing.  The
index/listing behaviour only applies when the URL path ends in `/`. -/
/-- C7 counterexample: `/root/sub` is an existing directory containing
`index.html`, yet `GET /sub` (no trailing slash) is answered 301 with an
empty body — not the index file and not a listing. -/
theorem claim7_counterexample :
    (handleRequest testEnv (getReq "/sub")).status = 301 ∧
    ¬(handleRequest testEnv (getReq "/sub")).status = 200 ∧
    (handleRequest testEnv (getReq "/sub")).body = [] := by decide

/-- C7 amended: for every GET request (without `If-Modified-Since`) whose
resolved target is an existing directory and whose URL path ends in `/`:
if `index.html` exists there (and opens), it is served with status 200;
else if `index.htm` exists (and opens), that is served; otherwise, when the
directory is listable, a generated HTML directory listing is returned with
status 200. -/
theorem claim7_dir_index_listing (e : Env) (req : Request)
    (hm : req.command = str "GET")
    (hims : req.hasIMS = false)
    (hdir : e.isdir (translate_path e.directory req.path) = true)
    (hsl : endsWithChar '/' (urlsplitP req.path).path = true) :
    (e.isfile (pJoin (translate_path e.directory req.path) (str "index.html")) = true →
     e.openOk (pJoin (translate_path e.directory req.path) (str "index.html")) = true →
     (handleRequest e req).status = 200 ∧
     (handleRequest e req).body =
       e.contents (pJoin (translate_path e.directory req.path) (str "index.html"))) ∧
    (e.isfile (pJoin (translate_path e.directory req.path) (str "index.html")) = false →
     e.isfile (pJoin (translate_path e.directory req.path) (str "index.htm")) = true →
     e.openOk (pJoin (translate_path e.directory req.path) (str "index.htm")) = true →
     (handleRequest e req).status = 200 ∧
     (handleRequest e req).body =
       e.contents (pJoin (translate_path e.directory req.path) (str "index.htm"))) ∧
    (e.isfile (pJoin (translate_path e.directory req.path) (str "index.html")) = false →
     e.isfile (pJoin (translate_path e.directory req.path) (str "index.htm")) = false →
     e.listOk (translate_path e.directory req.path) = true →
     (handleRequest e req).status = 200 ∧
     (handleRequest e req).body =
       listingBody e req.path (translate_path e.directory req.path)) := by
  refine ⟨?_, ?_, ?_⟩
  · intro hf1 hopen
    have hsh := send_head_dir_idx1 e req hdir hsl hf1
    have hslash : endsWithChar '/'
        (pJoin (translate_path e.directory req.path) (str "index.html")) = false := by
      rw [endsWith_pJoin _ _ (by decide)]; decide
    have hsf := serveFile_200 e req _ hims hslash hopen
    have h2 : (send_head e req).2 =
        some (e.contents (pJoin (translate_path e.directory req.path) (str "index.html"))) := by
      rw [hsh, hsf]
    rw [handleRequest_of_some e req _ hm h2, hsh, hsf]
    exact ⟨rfl, by simp⟩
  · intro hf1 hf2 hopen
    have hsh := send_head_dir_idx2 e req hdir hsl hf1 hf2
    have hslash : endsWithChar '/'
        (pJoin (translate_path e.directory req.path) (str "index.htm")) = false := by
      rw [endsWith_pJoin _ _ (by decide)]; decide
    have hsf := serveFile_200 e req _ hims hslash hopen
    have h2 : (send_head e req).2 =
        some (e.contents (pJoin (translate_path e.directory req.path) (str "index.htm"))) := by
      rw [hsh, hsf]
    rw [handleRequest_of_some e req _ hm h2, hsh, hsf]
    exact ⟨rfl, by simp⟩
  · intro hf1 hf2 hlist
    have hsh := send_head_dir_listing e req hdir hsl hf1 hf2
    have hld := list_directory_200 e req (translate_path e.directory req.path) hlist
    have h2 : (send_head e req).2 =
        some (listingBody e req.path (translate_path e.directory req.path)) := by
      rw [hsh, hld]
    rw [handleRequest_of_some e req _ hm h2, hsh, hld]
    exact ⟨rfl, by simp⟩

/-- C7 amended-claim witness: `GET /sub/` serves `/root/sub/index.html`
(status 200, body `<h1>idx</h1>`), and `GET /` — no index in `/root` —
returns the generated listing of `/root/`. -/
theorem claim7_dir_index_listing_witness :
    ((handleRequest testEnv (getReq "/sub/")).status = 200 ∧
     (handleRequest testEnv (getReq "/sub/")).body =
       testEnv.contents (pJoin (translate_path testEnv.directory (getReq "/sub/").path)
         (str "index.html"))) ∧
    ((handleRequest testEnv (getReq "/")).status = 200 ∧
     (handleRequest testEnv (getReq "/")).body =
       listingBody testEnv (getReq "/").path
         (translate_path testEnv.directory (getReq "/").path)) :=
  ⟨(claim7_dir_index_listing testEnv (getReq "/sub/") rfl rfl (by decide) (by decide)).1
      (by decide) (by decide),
   (claim7_dir_index_listing testEnv (getReq "/") rfl rfl (by decide) (by decide)).2.2
      (by decide) (by decide) (by decide)⟩

theorem pHas_of_take1 {w : PStr} (h : w.take 1 = str "/") : pHas '/' w = true := by
  rcases w with _ | ⟨x, xs⟩
  · exact absurd h (by decide)
  · have hx : x = '/' := by
      have : [x] = ['/'] := h
      exact List.singleton_injective this
    subst hx
    simp [pHas]

theorem UnderRoot_pJoin {root : PStr} (a w : PStr)
    (hne : root ≠ []) (hsl : endsWithChar '/' root = false)
    (h : UnderRoot root a) (hw : w.take 1 ≠ str "/") :
    UnderRoot root (pJoin a w) := by
  unfold pJoin
  split
  · next hc => exact absurd hc hw
  · split
    · next hc =>
      rcases h with rfl | ⟨r, rfl⟩
      · rcases hc with h0 | h0
        · exact absurd h0 hne
        · rw [hsl] at h0
          exact Bool.noConfusion h0
      · exact Or.inr ⟨r ++ w, by simp⟩
    · rcases h with rfl | ⟨r, rfl⟩
      · exact Or.inr ⟨w, rfl⟩
      · exact Or.inr ⟨r ++ '/' :: w, by simp⟩

theorem UnderRoot_translateStep {root : PStr} (a w : PStr)
    (hne : root ≠ []) (hsl : endsWithChar '/' root = false)
    (h : UnderRoot root a) : UnderRoot root (translateStep a w) := by
  unfold translateStep
  split
  · exact h
  · next hc =>
    exact UnderRoot_pJoin a w hne hsl h
      (fun htake => hc (Or.inl (pHas_of_take1 htake)))

theorem UnderRoot_foldl {root : PStr} (ws : List PStr) (acc : PStr)
    (hne : root ≠ []) (hsl : endsWithChar '/' root = false)
    (h : UnderRoot root acc) : UnderRoot root (ws.foldl translateStep acc) := by
  induction ws generalizing acc with
  | nil => exact h
  | cons w ws ih =>
    exact ih (translateStep acc w) (UnderRoot_translateStep acc w hne hsl h)

theorem UnderRoot_append_slash {root p : PStr} (h : UnderRoot root p) :
    UnderRoot root (p ++ ['/']) := by
  rcases h with rfl | ⟨r, rfl⟩
  · exact Or.inr ⟨[], rfl⟩
  · exact Or.inr ⟨r ++ ['/'], by simp⟩

theorem translate_path_under (root p : PStr)
    (hne : root ≠ []) (hsl : endsWithChar '/' root = false) :
    UnderRoot root (translate_path root p) := by
  unfold translate_path
  dsimp only
  have h := UnderRoot_foldl
    ((pSplitAll '/' (normpath (unquote (pBefore '#' (pBefore '?' p))))).filter
      (fun w => w ≠ []))
    root hne hsl (Or.inl rfl)
  split
  · exact UnderRoot_append_slash h
  · exact h

theorem sendResponse_congr (e1 e2 : Env) (hd : e1.dateStr = e2.dateStr) :
    sendResponseHeaders e1 = sendResponseHeaders e2 := by
  unfold sendResponseHeaders
  rw [hd]

theorem send_error_congr (e1 e2 : Env) (cmd : PStr) (code : Nat) (msg expl : PStr)
    (hd : e1.dateStr = e2.dateStr) :
    send_error e1 cmd code msg expl = send_error e2 cmd code msg expl := by
  unfold send_error
  rw [sendResponse_congr e1 e2 hd]

theorem serveFile_congr (e1 e2 : Env) (req : Request) (path : PStr)
    (hd : e1.dateStr = e2.dateStr)
    (hgt : e1.guessType path = e2.guessType path)
    (hopen : e1.openOk path = e2.openOk path)
    (hcont : e1.contents path = e2.contents path)
    (hlm : e1.lastModStr path = e2.lastModStr path)
    (hims : e1.imsHit path = e2.imsHit path) :
    serveFile e1 req path = serveFile e2 req path := by
  unfold serveFile
  rw [hgt, hopen, hcont, hlm, hims,
    send_error_congr e1 e2 req.command 404 (str "File not found")
      (str "Nothing matches the given URI") hd,
    sendResponse_congr e1 e2 hd]

theorem mem_insSorted {x y : PStr} {l : List PStr} (h : x ∈ insSorted y l) :
    x = y ∨ x ∈ l := by
  induction l with
  | nil =>
    simp only [insSorted, List.mem_singleton] at h
    exact Or.inl h
  | cons z zs ih =>
    unfold insSorted at h
    split at h
    · rcases List.mem_cons.mp h with rfl | hm
      · exact Or.inr (List.mem_cons_self _ _)
      · rcases ih hm with h0 | h0
        · exact Or.inl h0
        · exact Or.inr (List.mem_cons_of_mem _ h0)
    · rcases List.mem_cons.mp h with rfl | hm
      · exact Or.inl rfl
      · exact Or.inr hm

theorem mem_sortFold {l acc : List PStr} {x : PStr}
    (h : x ∈ l.foldl (fun a z => insSorted z a) acc) : x ∈ acc ∨ x ∈ l := by
  induction l generalizing acc with
  | nil => exact Or.inl h
  | cons z zs ih =>
    rcases ih h with h0 | h0
    · rcases mem_insSorted h0 with rfl | h1
      · exact Or.inr (List.mem_cons_self _ _)
      · exact Or.inl h1
    · exact Or.inr (List.mem_cons_of_mem _ h0)

theorem mem_sortByLower {l : List PStr} {x : PStr} (h : x ∈ sortByLower l) :
    x ∈ l := by
  rcases mem_sortFold h with h0 | h0
  · exact absurd h0 (List.not_mem_nil x)
  · exact h0

theorem listingBody_congr (e1 e2 : Env) (rp path : PStr)
    (hlist : e1.listdir path = e2.listdir path)
    (hitem : ∀ n ∈ e1.listdir path,
       e1.isdir (pJoin path n) = e2.isdir (pJoin path n) ∧
       e1.islink (pJoin path n) = e2.islink (pJoin path n)) :
    listingBody e1 rp path = listingBody e2 rp path := by
  unfold listingBody
  dsimp only
  rw [← hlist]
  have hmap := List.map_congr_left (l := sortByLower (e1.listdir path))
    (f := fun name =>
      str "<li><a href=\"" ++
        pQuote (if e1.isdir (pJoin path name) then name ++ ['/'] else name) ++
        str "\">" ++
        htmlEscape (if e1.islink (pJoin path name) then name ++ ['@']
          else if e1.isdir (pJoin path name) then name ++ ['/'] else name) ++
        str "</a></li>")
    (g := fun name =>
      str "<li><a href=\"" ++
        pQuote (if e2.isdir (pJoin path name) then name ++ ['/'] else name) ++
        str "\">" ++
        htmlEscape (if e2.islink (pJoin path name) then name ++ ['@']
          else if e2.isdir (pJoin path name) then name ++ ['/'] else name) ++
        str "</a></li>")
    (fun n hn => by
      obtain ⟨h1, h2⟩ := hitem n (mem_sortByLower hn)
      dsimp only
      rw [h1, h2])
  rw [hmap]

theorem list_directory_congr (e1 e2 : Env) (req : Request) (path : PStr)
    (hd : e1.dateStr = e2.dateStr)
    (hlistOk : e1.listOk path = e2.listOk path)
    (hlb : listingBody e1 req.path path = listingBody e2 req.path path) :
    list_directory e1 req path = list_directory e2 req path := by
  unfold list_directory
  rw [hlistOk,
    send_error_congr e1 e2 req.command 404 (str "No permission to list directory")
      (str "Nothing matches the given URI") hd,
    sendResponse_congr e1 e2 hd, hlb]

theorem send_head_congr (e1 e2 : Env) (req : Request)
    (hroot : e2.directory = e1.directory)
    (hne : e1.directory ≠ []) (hsl : endsWithChar '/' e1.directory = false)
    (hg : e1.guessType = e2.guessType) (hd : e1.dateStr = e2.dateStr)
    (ha : ∀ p, UnderRoot e1.directory p → agreeAt e1 e2 p)
    (hnames : ∀ p, UnderRoot e1.directory p →
       ∀ n ∈ e1.listdir p, n.take 1 ≠ str "/") :
    send_head e1 req = send_head e2 req := by
  unfold send_head
  dsimp only
  rw [hroot]
  have hu : UnderRoot e1.directory (translate_path e1.directory req.path) :=
    translate_path_under _ _ hne hsl
  obtain ⟨hdir, _, _, hopen, hcont, hlistOk, hlist, hlm, hims⟩ := ha _ hu
  rw [hdir]
  split
  · split
    · rw [sendResponse_congr e1 e2 hd]
    · have hu1 : UnderRoot e1.directory
          (pJoin (translate_path e1.directory req.path) (str "index.html")) :=
        UnderRoot_pJoin _ _ hne hsl hu (by decide)
      have hu2 : UnderRoot e1.directory
          (pJoin (translate_path e1.directory req.path) (str "index.htm")) :=
        UnderRoot_pJoin _ _ hne hsl hu (by decide)
      obtain ⟨_, hf1, _, ho1, hc1, _, _, hl1, hi1⟩ := ha _ hu1
      obtain ⟨_, hf2, _, ho2, hc2, _, _, hl2, hi2⟩ := ha _ hu2
      rw [hf1, hf2]
      split
      · exact serveFile_congr e1 e2 req _ hd (congrFun hg _) ho1 hc1 hl1 hi1
      · split
        · exact serveFile_congr e1 e2 req _ hd (congrFun hg _) ho2 hc2 hl2 hi2
        · refine list_directory_congr e1 e2 req _ hd hlistOk
            (listingBody_congr e1 e2 req.path _ hlist ?_)
          intro n hn
          have hun : UnderRoot e1.directory
              (pJoin (translate_path e1.directory req.path) n) :=
            UnderRoot_pJoin _ _ hne hsl hu (hnames _ hu n hn)
          obtain ⟨hdn, _, hln, _⟩ := ha _ hun
          exact ⟨hdn, hln⟩
  · exact serveFile_congr e1 e2 req _ hd (congrFun hg _) hopen hcont hlm hims

/-- The handler's response is identical in any two environments that share
the root, clock and MIME table and whose filesystems agree at every path
under the root: no response ever depends on (or returns content of) anything
outside the served root. -/
theorem handleRequest_agree (e1 e2 : Env) (req : Request)
    (hroot : e2.directory = e1.directory)
    (hne : e1.directory ≠ []) (hsl : endsWithChar '/' e1.directory = false)
    (hg : e1.guessType = e2.guessType) (hd : e1.dateStr = e2.dateStr)
    (ha : ∀ p, UnderRoot e1.directory p → agreeAt e1 e2 p)
    (hnames : ∀ p, UnderRoot e1.directory p →
       ∀ n ∈ e1.listdir p, n.take 1 ≠ str "/") :
    handleRequest e1 req = handleRequest e2 req := by
  unfold handleRequest
  rw [send_error_congr e1 e2 req.command 501 (unsupportedMsg req.command)
      (str "Server does not support this operation") hd,
    send_head_congr e1 e2 req hroot hne hsl hg hd ha hnames]

/-- C3: (a) every request path — including traversal sequences like
`/../../etc/passwd` — resolves under the served root (`translate_path` lands
on the root or strictly below it); (b) a GET/HEAD whose resolved target is
neither an existing directory nor an openable file is answered 404; (c) the
response never contains content from outside the root: two environments that
agree on every path under the root (same root, clock, MIME table, and
`os.listdir` returning plain names) produce identical responses. -/
theorem claim3_path_containment :
    (∀ (root p : PStr), root ≠ [] → endsWithChar '/' root = false →
       UnderRoot root (translate_path root p)) ∧
    (∀ (e : Env) (req : Request),
       (req.command = str "GET" ∨ req.command = str "HEAD") →
       e.isdir (translate_path e.directory req.path) = false →
       e.openOk (translate_path e.directory req.path) = false →
       (handleRequest e req).status = 404) ∧
    (∀ (e1 e2 : Env) (req : Request),
       e2.directory = e1.directory →
       e1.directory ≠ [] → endsWithChar '/' e1.directory = false →
       e1.guessType = e2.guessType → e1.dateStr = e2.dateStr →
       (∀ p, UnderRoot e1.directory p → agreeAt e1 e2 p) →
       (∀ p, UnderRoot e1.directory p → ∀ n ∈ e1.listdir p, n.take 1 ≠ str "/") →
       handleRequest e1 req = handleRequest e2 req) := by
  refine ⟨fun root p => translate_path_under root p, ?_, handleRequest_agree⟩
  intro e req hm hdir hopen
  have hg : ¬(req.command ≠ str "GET" ∧ req.command ≠ str "HEAD") := by
    rcases hm with h | h
    · exact fun hc => hc.1 h
    · exact fun hc => hc.2 h
  have hsh := send_head_nondir e req hdir
  have hsf := serveFile_404_open e req _ hopen
  have h2 : (send_head e req).2 = none := by rw [hsh, hsf]
  rw [handleRequest_of_none e req hg h2, hsh, hsf]
  rfl

theorem beq_etc_false (r : PStr) :
    ((str "/root" ++ '/' :: r) == str "/etc/passwd") = false := by
  apply Bool.eq_false_iff.mpr
  intro h
  have heq := eq_of_beq h
  have h2 : List.take 2 (str "/root" ++ '/' :: r) =
      List.take 2 (str "/etc/passwd") := congrArg _ heq
  rw [show List.take 2 (str "/root" ++ '/' :: r) = ['/', 'r'] from rfl] at h2
  exact absurd h2 (by decide)

theorem underRoot_ne_etc {p : PStr} (hu : UnderRoot (str "/root") p) :
    (p == str "/etc/passwd") = false := by
  rcases hu with rfl | ⟨r, rfl⟩
  · decide
  · exact beq_etc_false r

/-- C3 witness: the traversal request `/../../etc/passwd` resolves under the
root, gets a 404 on the test filesystem, and its response is bit-identical
whether or not a readable `/etc/passwd` exists outside the root. -/
theorem claim3_path_containment_witness :
    UnderRoot (str "/root") (translate_path (str "/root") (str "/../../etc/passwd")) ∧
    (handleRequest testEnv (getReq "/../../etc/passwd")).status = 404 ∧
    handleRequest testEnv (getReq "/../../etc/passwd") =
      handleRequest outsideEnv (getReq "/../../etc/passwd") := by
  refine ⟨claim3_path_containment.1 (str "/root") (str "/../../etc/passwd")
      (by decide) (by decide),
    claim3_path_containment.2.1 testEnv (getReq "/../../etc/passwd")
      (Or.inl rfl) (by decide) (by decide),
    claim3_path_containment.2.2 testEnv outsideEnv (getReq "/../../etc/passwd")
      rfl (by decide) (by decide) rfl rfl ?_ ?_⟩
  · intro p hp
    have hf := underRoot_ne_etc hp
    refine ⟨rfl, ?_, rfl, ?_, ?_, rfl, rfl, rfl, rfl⟩
    · show testEnv.isfile p = (testEnv.isfile p || (p == str "/etc/passwd"))
      rw [hf, Bool.or_false]
    · show testEnv.openOk p = (testEnv.openOk p || (p == str "/etc/passwd"))
      rw [hf, Bool.or_false]
    · show testEnv.contents p =
        (if (p == str "/etc/passwd") = true then str "root:x:0:0:root:/root:/bin/bash"
         else testEnv.contents p)
      rw [hf]
      simp
  · intro p _ n hn
    have hn' : n ∈ [str "f.txt", str "sub"] := hn
    rcases List.mem_cons.mp hn' with rfl | hn2
    · decide
    · rcases List.mem_cons.mp hn2 with rfl | hn3
      · decide
      · exact absurd hn3 (List.not_mem_nil n)

/-! ## Claim C10: query and fragment suffixes do not affect resolution -/
theorem pHas_append (c : Char) (a b : PStr) :
    pHas c (a ++ b) = (pHas c a || pHas c b) := by
  unfold pHas
  exact List.any_append

theorem pBefore_append_of_has (c : Char) (p q : PStr) (h : pHas c p = true) :
    pBefore c (p ++ q) = pBefore c p := by
  induction p with
  | nil => exact Bool.noConfusion h
  | cons a as ih =>
    by_cases hac : a = c
    · subst hac
      simp [pBefore, List.takeWhile_cons]
    · have h' : pHas c as = true := by
        unfold pHas at h ⊢
        simpa [hac] using h
      simp only [pBefore, List.cons_append, List.takeWhile_cons] at ih ⊢
      simp only [show (a != c) = true by simpa using hac, if_true]
      rw [ih h']

theorem pBefore_append_of_not (c : Char) (p q : PStr) (h : pHas c p = false) :
    pBefore c (p ++ q) = p ++ pBefore c q := by
  induction p with
  | nil => rfl
  | cons a as ih =>
    have hac : ¬(a = c) := by
      intro hx
      subst hx
      simp [pHas] at h
    have h' : pHas c as = false := by
      unfold pHas at h ⊢
      simpa [hac] using h
    simp only [pBefore, List.cons_append, List.takeWhile_cons] at ih ⊢
    simp only [show (a != c) = true by simpa using hac, if_true]
    rw [ih h']

theorem pBefore_of_not (c : Char) (p : PStr) (h : pHas c p = false) :
    pBefore c p = p := by
  have := pBefore_append_of_not c p [] h
  simpa [pBefore] using this

/-- Appending a `?…` or `#…` suffix does not change
`path.split('?',1)[0].split('#',1)[0]`. -/
theorem strip_suffix (p q : PStr)
    (hq : q.head? = some '?' ∨ q.head? = some '#') :
    pBefore '#' (pBefore '?' (p ++ q)) = pBefore '#' (pBefore '?' p) := by
  rcases q with _ | ⟨c, rest⟩
  · simp at hq
  · rcases hq with hc | hc
    · have hc' : c = '?' := by simpa using hc
      subst hc'
      by_cases hp : pHas '?' p = true
      · rw [pBefore_append_of_has '?' p _ hp]
      · have hp' : pHas '?' p = false := by simpa using hp
        rw [pBefore_append_of_not '?' p _ hp', pBefore_of_not '?' p hp']
        have : pBefore '?' ('?' :: rest) = [] := by simp [pBefore, List.takeWhile_cons]
        rw [this, List.append_nil]
    · have hc' : c = '#' := by simpa using hc
      subst hc'
      by_cases hp : pHas '?' p = true
      · rw [pBefore_append_of_has '?' p _ hp]
      · have hp' : pHas '?' p = false := by simpa using hp
        rw [pBefore_append_of_not '?' p _ hp', pBefore_of_not '?' p hp']
        by_cases hh : pHas '#' p = true
        · rw [pBefore_append_of_has '#' p _ hh]
        · have hh' : pHas '#' p = false := by simpa using hh
          rw [pBefore_append_of_not '#' p _ hh', pBefore_of_not '#' p hh']
          have hb : pBefore '#' (pBefore '?' ('#' :: rest)) = [] := by
            have h1 : pBefore '?' ('#' :: rest) =
                '#' :: pBefore '?' rest := by simp [pBefore, List.takeWhile_cons]
            rw [h1]
            simp [pBefore, List.takeWhile_cons]
          rw [hb, List.append_nil]

theorem translate_path_suffix (d p q : PStr)
    (hq : q.head? = some '?' ∨ q.head? = some '#') :
    translate_path d (p ++ q) = translate_path d p := by
  unfold translate_path
  dsimp only
  rw [strip_suffix p q hq]

theorem serveFile_req_path_blind (e : Env) (r1 r2 : Request) (path : PStr)
    (hc : r1.command = r2.command) (hi : r1.hasIMS = r2.hasIMS)
    (hn : r1.hasINM = r2.hasINM) :
    serveFile e r1 path = serveFile e r2 path := by
  unfold serveFile
  rw [hc, hi, hn]

/-- C10: (a) for every request path, appending a query (`?…`) or fragment
(`#…`) suffix leaves the resolved filesystem target unchanged; (b) whenever
the resolved target is not a directory (a regular file such as `/f.txt`, or a
missing path), the entire response — status, headers and body — is identical
with and without the suffix, for any method and conditional-header flags. -/
theorem claim10_query_fragment_ignored :
    (∀ (d p q : PStr), q.head? = some '?' ∨ q.head? = some '#' →
       translate_path d (p ++ q) = translate_path d p) ∧
    (∀ (e : Env) (m p q : PStr) (i n : Bool),
       q.head? = some '?' ∨ q.head? = some '#' →
       e.isdir (translate_path e.directory p) = false →
       handleRequest e ⟨m, p ++ q, i, n⟩ = handleRequest e ⟨m, p, i, n⟩) := by
  refine ⟨translate_path_suffix, ?_⟩
  intro e m p q i n hq hdir
  have htp : translate_path e.directory (p ++ q) = translate_path e.directory p :=
    translate_path_suffix e.directory p q hq
  have hdir1 : e.isdir
      (translate_path e.directory (⟨m, p ++ q, i, n⟩ : Request).path) = false := by
    dsimp only
    rw [htp]
    exact hdir
  have hsend : send_head e ⟨m, p ++ q, i, n⟩ = send_head e ⟨m, p, i, n⟩ := by
    rw [send_head_nondir e ⟨m, p ++ q, i, n⟩ hdir1,
      send_head_nondir e ⟨m, p, i, n⟩ hdir]
    dsimp only
    rw [htp]
    exact serveFile_req_path_blind e _ _ _ rfl rfl rfl
  unfold handleRequest
  dsimp only
  rw [hsend]

/-- C10 witness: `GET /f.txt?x=1` resolves to the same target as
`GET /f.txt` and yields the identical response on the test filesystem. -/
theorem claim10_query_fragment_ignored_witness :
    translate_path (str "/root") (str "/f.txt" ++ str "?x=1") =
      translate_path (str "/root") (str "/f.txt") ∧
    handleRequest testEnv ⟨str "GET", str "/f.txt" ++ str "?x=1", false, false⟩ =
      handleRequest testEnv ⟨str "GET", str "/f.txt", false, false⟩ :=
  ⟨claim10_query_fragment_ignored.1 (str "/root") (str "/f.txt") (str "?x=1")
      (Or.inl rfl),
   claim10_query_fragment_ignored.2 testEnv (str "GET") (str "/f.txt") (str "?x=1")
      false false (Or.inl rfl) (by decide)⟩
